import Mathlib

/-!
Verification of the phoneme-to-viseme alignment engine of the
J.A.R.V.I.S. real-time animated head assistant.

The development shallowly embeds the two Python source files
(tts_pipeline.py and llm_tts_pipeline.py).  Machine reals (Python
floats) are modelled as exact rationals; Python strings are Lean
strings; ASCII text transformations (upper-casing, alpha/digit tests,
whitespace) are modelled at ASCII precision, which covers every input
appearing in the specification's scenarios.  External collaborators
(the speech engine, the file system, the language model) are
parameters of the embedded functions.
-/

namespace TTS

/-- The character U+0027, kept by the word normalizer alongside
alphabetic characters. -/
def apostropheChar : Char := Char.ofNat 39

/-- ASCII lower-to-upper table used to model Python's str.upper on the
ASCII range. -/
def asciiUpperTable : List (Char × Char) :=
  [('a', 'A'), ('b', 'B'), ('c', 'C'), ('d', 'D'), ('e', 'E'), ('f', 'F'),
   ('g', 'G'), ('h', 'H'), ('i', 'I'), ('j', 'J'), ('k', 'K'), ('l', 'L'),
   ('m', 'M'), ('n', 'N'), ('o', 'O'), ('p', 'P'), ('q', 'Q'), ('r', 'R'),
   ('s', 'S'), ('t', 'T'), ('u', 'U'), ('v', 'V'), ('w', 'W'), ('x', 'X'),
   ('y', 'Y'), ('z', 'Z')]

/-- Model of Python's ch.upper() restricted to ASCII: a lower-case
ASCII letter is replaced by its upper-case partner, anything else is
returned unchanged. -/
def pyUpperChar (c : Char) : Char :=
  ((asciiUpperTable.find? (fun e => e.1 = c)).map Prod.snd).getD c

/-- Model of Python's str.upper() (ASCII precision). -/
def pyUpper (s : String) : String :=
  String.mk (s.toList.map pyUpperChar)

/-- Model of Python's str.strip(): drop leading and trailing
whitespace. -/
def pyStrip (s : String) : String :=
  String.mk (((s.toList.dropWhile Char.isWhitespace).reverse.dropWhile
    Char.isWhitespace).reverse)

/-- Worker for pyWords: scans the characters, building the current
word in acc (reversed) and emitting it when whitespace or the end of
the input is reached. -/
def pyWordsAux : List Char → List Char → List String
  | [], acc => if acc = [] then [] else [String.mk acc.reverse]
  | c :: cs, acc =>
    if c.isWhitespace then
      if acc = [] then pyWordsAux cs []
      else String.mk acc.reverse :: pyWordsAux cs []
    else pyWordsAux cs (c :: acc)

/-- Model of Python's str.split() with no argument: the maximal
non-empty runs of non-whitespace characters, in order. -/
def pyWords (s : String) : List String :=
  pyWordsAux s.toList []

/-- SHAPES from tts_pipeline.py line 14: the fixed viseme alphabet.
The Python set is modelled as the list of its (distinct) members. -/
def SHAPES : List String :=
  ["AA", "CH", "EE", "IH", "OH", "OU", "TH", "dd", "ff", "kk", "nn",
   "pp", "rr", "ss"]

/-- The inner helper pick(*candidates) of arpabet_to_shape: the first
candidate that is a member of SHAPES, else the empty string. -/
def pick : List String → String
  | [] => ""
  | c :: rest => if c ∈ SHAPES then c else pick rest

/-- The body of arpabet_to_shape applied to the already upper-cased
symbol a (tts_pipeline.py lines 25-47). -/
def shapeOfUpper (a : String) : String :=
  if a ∈ (["AA", "AE", "AH"] : List String) then pick ["AA"]
  else if a ∈ (["IY", "IH", "EY", "IX"] : List String) then pick ["EE", "IH"]
  else if a = "EH" then pick ["IH", "EE"]
  else if a ∈ (["OW", "AO"] : List String) then pick ["OH", "OU"]
  else if a ∈ (["AW", "AY", "OY", "UH", "UW"] : List String) then
    pick ["OU", "OH"]
  else if a ∈ (["P", "B", "M"] : List String) then pick ["pp"]
  else if a ∈ (["F", "V"] : List String) then pick ["ff"]
  else if a ∈ (["K", "G"] : List String) then pick ["kk"]
  else if a ∈ (["N", "NG"] : List String) then pick ["nn"]
  else if a ∈ (["D", "T"] : List String) then pick ["dd"]
  else if a ∈ (["R", "ER"] : List String) then pick ["rr"]
  else if a ∈ (["S", "Z", "SH", "ZH"] : List String) then pick ["ss"]
  else if a ∈ (["CH", "JH"] : List String) then pick ["CH"]
  else if a ∈ (["TH", "DH"] : List String) then pick ["TH"]
  else if a ∈ SHAPES then a
  else ""

/-- arpabet_to_shape from tts_pipeline.py lines 23-47: upper-cases the
incoming ARPAbet phoneme symbol and maps it to a viseme shape, or to
the empty string ("no shape"). -/
def arpabet_to_shape (arpa : String) : String :=
  shapeOfUpper (pyUpper arpa)

/-- phones_to_shapes from tts_pipeline.py lines 66-67: map each phone
through arpabet_to_shape and keep only the non-empty results. -/
def phones_to_shapes (phones : List String) : List String :=
  (phones.map arpabet_to_shape).filter (fun s => s ≠ "")

lemma pick_mem_or_empty (cs : List String) : pick cs ∈ SHAPES ∨ pick cs = "" := by
  induction cs with
  | nil => exact Or.inr rfl
  | cons c rest ih =>
    by_cases h : c ∈ SHAPES
    · exact Or.inl (by simp [pick, h])
    · simpa [pick, h] using ih

lemma ite_shape_cases {c : Prop} [Decidable c] {x y : String}
    (hx : c → x ∈ SHAPES ∨ x = "") (hy : ¬c → y ∈ SHAPES ∨ y = "") :
    (if c then x else y) ∈ SHAPES ∨ (if c then x else y) = "" := by
  by_cases h : c
  · simpa [h] using hx h
  · simpa [h] using hy h

lemma shapeOfUpper_mem_or_empty (a : String) :
    shapeOfUpper a ∈ SHAPES ∨ shapeOfUpper a = "" := by
  unfold shapeOfUpper
  refine ite_shape_cases (fun _ => pick_mem_or_empty _) (fun _ => ?_)
  refine ite_shape_cases (fun _ => pick_mem_or_empty _) (fun _ => ?_)
  refine ite_shape_cases (fun _ => pick_mem_or_empty _) (fun _ => ?_)
  refine ite_shape_cases (fun _ => pick_mem_or_empty _) (fun _ => ?_)
  refine ite_shape_cases (fun _ => pick_mem_or_empty _) (fun _ => ?_)
  refine ite_shape_cases (fun _ => pick_mem_or_empty _) (fun _ => ?_)
  refine ite_shape_cases (fun _ => pick_mem_or_empty _) (fun _ => ?_)
  refine ite_shape_cases (fun _ => pick_mem_or_empty _) (fun _ => ?_)
  refine ite_shape_cases (fun _ => pick_mem_or_empty _) (fun _ => ?_)
  refine ite_shape_cases (fun _ => pick_mem_or_empty _) (fun _ => ?_)
  refine ite_shape_cases (fun _ => pick_mem_or_empty _) (fun _ => ?_)
  refine ite_shape_cases (fun _ => pick_mem_or_empty _) (fun _ => ?_)
  refine ite_shape_cases (fun _ => pick_mem_or_empty _) (fun _ => ?_)
  refine ite_shape_cases (fun _ => pick_mem_or_empty _) (fun _ => ?_)
  exact ite_shape_cases (fun h => Or.inl h) (fun _ => Or.inr rfl)

/-- Claim C2: arpabet_to_shape is a total function (hence
deterministic); SHAPES has exactly 14 symbols; and for every input
string the result is either a member of SHAPES or the empty string
("no shape") — never a value outside the alphabet. -/
theorem viseme_mapper_closed :
    SHAPES.length = 14 ∧
    ∀ s : String, arpabet_to_shape s ∈ SHAPES ∨ arpabet_to_shape s = "" :=
  ⟨rfl, fun s => shapeOfUpper_mem_or_empty (pyUpper s)⟩

/-- One timed interval of the alignment track: the dict
shape/start/end built in main (tts_pipeline.py line 125).  The end
field is called stop because end is a reserved word in Lean.  Python
floats are modelled as exact rationals. -/
structure Slot where
  shape : String
  start : ℚ
  stop : ℚ
  deriving DecidableEq

/-- The Timeline Allocator: the slot-building loop of main
(tts_pipeline.py lines 120-125).  For each index i the slot spans
from (i / N) * duration to ((i + 1) / N) * duration where N is the
number of shapes. -/
def makeSlots (shapes : List String) (duration : ℚ) : List Slot :=
  shapes.enum.map (fun p =>
    { shape := p.2,
      start := ((p.1 : ℚ) / (shapes.length : ℚ)) * duration,
      stop := (((p.1 : ℚ) + 1) / (shapes.length : ℚ)) * duration })

lemma makeSlots_length (shapes : List String) (d : ℚ) :
    (makeSlots shapes d).length = shapes.length := by
  simp [makeSlots]

lemma makeSlots_getElem?_iff (shapes : List String) (d : ℚ) (i : ℕ) (si : Slot) :
    (makeSlots shapes d)[i]? = some si ↔
      ∃ sh, shapes[i]? = some sh ∧
        si = ⟨sh, ((i : ℚ) / (shapes.length : ℚ)) * d,
              (((i : ℚ) + 1) / (shapes.length : ℚ)) * d⟩ := by
  simp only [makeSlots, List.getElem?_map, List.getElem?_enum,
    Option.map_map, Option.map_eq_some']
  constructor
  · rintro ⟨sh, hsh, rfl⟩
    exact ⟨sh, hsh, rfl⟩
  · rintro ⟨sh, hsh, rfl⟩
    exact ⟨sh, hsh, rfl⟩

/-- Claim C1: for every shape list of length N > 0 and every duration
d > 0 the Timeline Allocator returns exactly N intervals; interval i
spans from d * i / N to d * (i + 1) / N and carries shapes[i]; the
first interval starts at 0; the last interval ends exactly at d (so
in particular within any relative tolerance); start times are
strictly increasing; and each interval ends where the next one
starts.  The rationals model the Python floats, so the equalities are
exact. -/
theorem timeline_allocator_uniform_partition (shapes : List String) (d : ℚ)
    (hN : 0 < shapes.length) (hd : 0 < d) :
    (makeSlots shapes d).length = shapes.length ∧
    (∀ (i : ℕ) (sh : String), shapes[i]? = some sh →
      (makeSlots shapes d)[i]? =
        some (Slot.mk sh (d * (i : ℚ) / (shapes.length : ℚ))
          (d * ((i : ℚ) + 1) / (shapes.length : ℚ)))) ∧
    ((makeSlots shapes d).head?.map Slot.start = some 0) ∧
    ((makeSlots shapes d).getLast?.map Slot.stop = some d) ∧
    (∀ (i j : ℕ) (si sj : Slot), (makeSlots shapes d)[i]? = some si →
      (makeSlots shapes d)[j]? = some sj → i < j → si.start < sj.start) ∧
    (∀ (i : ℕ) (si sj : Slot), (makeSlots shapes d)[i]? = some si →
      (makeSlots shapes d)[i + 1]? = some sj → si.stop = sj.start) := by
  have hlen : ((shapes.length : ℚ)) ≠ 0 := by
    exact_mod_cast Nat.pos_iff_ne_zero.mp hN
  have key : ∀ (i : ℕ) (sh : String), shapes[i]? = some sh →
      (makeSlots shapes d)[i]? =
        some (Slot.mk sh (((i : ℚ) / (shapes.length : ℚ)) * d)
          ((((i : ℚ) + 1) / (shapes.length : ℚ)) * d)) := by
    intro i sh hsh
    exact (makeSlots_getElem?_iff shapes d i _).mpr ⟨sh, hsh, rfl⟩
  refine ⟨makeSlots_length shapes d, ?_, ?_, ?_, ?_, ?_⟩
  · intro i sh hsh
    rw [key i sh hsh]
    congr 1
    refine Slot.mk.injEq _ _ _ _ _ _ ▸ ?_
    exact ⟨rfl, by ring, by ring⟩
  · rw [List.head?_eq_getElem?]
    cases hhead : shapes[0]? with
    | none =>
      rw [List.getElem?_eq_none_iff] at hhead
      omega
    | some sh =>
      rw [key 0 sh hhead]
      simp
  · rw [List.getLast?_eq_getElem?, makeSlots_length]
    cases hlast : shapes[shapes.length - 1]? with
    | none =>
      rw [List.getElem?_eq_none_iff] at hlast
      omega
    | some sh =>
      rw [key _ _ hlast]
      have hcast : ((shapes.length - 1 : ℕ) : ℚ) + 1 = (shapes.length : ℚ) := by
        have : (1 : ℕ) ≤ shapes.length := hN
        push_cast [this]
        ring
      simp only [Option.map_some', hcast, div_self hlen, one_mul]
  · intro i j si sj hi hj hij
    obtain ⟨shi, hshi, rfl⟩ := (makeSlots_getElem?_iff shapes d i si).mp hi
    obtain ⟨shj, hshj, rfl⟩ := (makeSlots_getElem?_iff shapes d j sj).mp hj
    have hNQ : (0 : ℚ) < (shapes.length : ℚ) := by exact_mod_cast hN
    have hij' : (i : ℚ) < (j : ℚ) := by exact_mod_cast hij
    exact mul_lt_mul_of_pos_right ((div_lt_div_iff_of_pos_right hNQ).mpr hij') hd
  · intro i si sj hi hj
    obtain ⟨shi, hshi, rfl⟩ := (makeSlots_getElem?_iff shapes d i si).mp hi
    obtain ⟨shj, hshj, rfl⟩ := (makeSlots_getElem?_iff shapes d (i + 1) sj).mp hj
    push_cast
    ring

/-- Witness for claim C1 at shapes = [AA, dd] and duration 2: the
hypotheses hold and the allocator ends the last of the two intervals
exactly at 2. -/
theorem timeline_allocator_uniform_partition_witness :
    0 < (["AA", "dd"] : List String).length ∧ (0 : ℚ) < 2 ∧
    (makeSlots ["AA", "dd"] 2).getLast?.map Slot.stop = some 2 :=
  ⟨by decide, by norm_num,
    (timeline_allocator_uniform_partition ["AA", "dd"] 2 (by decide)
      (by norm_num)).2.2.2.1⟩

/-- Claim C5: for the empty shape list and any duration the Timeline
Allocator returns the empty interval sequence.  In the model this is
a definitional equality; in the source the loop body (the only place
where the division i / N occurs) is never executed when N = 0, so no
division by zero and no error can occur. -/
theorem timeline_allocator_empty (d : ℚ) : makeSlots [] d = [] := rfl

/-- The word normalization of text_to_arpabet (tts_pipeline.py line
53): keep only alphabetic characters and apostrophes, then
upper-case. -/
def normalizeWord (raw : String) : String :=
  pyUpper (String.mk (raw.toList.filter
    (fun ch => ch.isAlpha || ch = apostropheChar)))

/-- The stress-marker stripping of text_to_arpabet (tts_pipeline.py
line 59): if the phone is non-empty and its last character is a
digit, drop that character. -/
def stripStress (p : String) : String :=
  match p.toList.getLast? with
  | some c => if c.isDigit then String.mk p.toList.dropLast else p
  | none => p

/-- The per-letter fallback of text_to_arpabet (tts_pipeline.py lines
62-63): one single-character phone per character of the (already
upper-cased) word, upper-cased once more as in the source. -/
def letterFallback (word : String) : List String :=
  word.toList.map (fun ch => String.mk [pyUpperChar ch])

/-- A pronunciation dictionary: each word maps to a non-empty-by-intent
list of pronunciation variants, each variant a list of phone symbols.
This models the cmudict dictionary object, which is external state of
the source (nltk data); it is a parameter of the embedding. -/
abbrev Lexicon : Type := List (String × List (List String))

/-- Dictionary membership and access, modelling the test `word in cmu`
and the read `cmu[word]`. -/
def lookupLex (lex : Lexicon) (w : String) : Option (List (List String)) :=
  (lex.find? (fun e => e.1 = w)).map Prod.snd

/-- The per-word body of the text_to_arpabet loop (tts_pipeline.py
lines 56-63), after normalization: a found word contributes its first
pronunciation variant with stress markers stripped; cmu[word][0] on an
empty variant list raises IndexError, modelled as none; an absent word
contributes one phone per character. -/
def wordPhones (lex : Lexicon) (word : String) : Option (List String) :=
  match lookupLex lex word with
  | some variants =>
    match variants with
    | [] => none
    | pron :: _ => some (pron.map stripStress)
  | none => some (letterFallback word)

/-- The word loop of text_to_arpabet: phones of each word in order;
none as soon as a word raises. -/
def phonesOfWords (lex : Lexicon) : List String → Option (List String)
  | [] => some []
  | w :: ws =>
    match wordPhones lex w, phonesOfWords lex ws with
    | some ps, some rest => some (ps ++ rest)
    | _, _ => none

/-- text_to_arpabet from tts_pipeline.py lines 49-64: split the text
into words, normalize each, skip the ones that normalize to empty,
and concatenate the phones of the rest. -/
def text_to_arpabet (lex : Lexicon) (text : String) : Option (List String) :=
  phonesOfWords lex
    (((pyWords text).map normalizeWord).filter (fun w => w ≠ ""))

lemma table_snd_not_key :
    ∀ p ∈ asciiUpperTable, asciiUpperTable.find? (fun e => e.1 = p.2) = none := by
  decide

lemma pyUpperChar_of_find?_none (c : Char)
    (h : asciiUpperTable.find? (fun e => e.1 = c) = none) : pyUpperChar c = c := by
  unfold pyUpperChar
  rw [h]
  rfl

lemma pyUpperChar_of_find?_some (c : Char) (e : Char × Char)
    (h : asciiUpperTable.find? (fun x => x.1 = c) = some e) :
    pyUpperChar c = e.2 := by
  unfold pyUpperChar
  rw [h]
  rfl

lemma pyUpperChar_idem (c : Char) :
    pyUpperChar (pyUpperChar c) = pyUpperChar c := by
  cases h : asciiUpperTable.find? (fun x => x.1 = c) with
  | none =>
    rw [pyUpperChar_of_find?_none c h, pyUpperChar_of_find?_none c h]
  | some e =>
    have hm : e ∈ asciiUpperTable := List.mem_of_find?_eq_some h
    rw [pyUpperChar_of_find?_some c e h,
      pyUpperChar_of_find?_none e.2 (table_snd_not_key e hm)]

lemma toList_mk (l : List Char) : (String.mk l).toList = l := rfl

lemma pyUpper_mk (l : List Char) :
    pyUpper (String.mk l) = String.mk (l.map pyUpperChar) := rfl

lemma mk_singleton_ne_empty (c : Char) : String.mk [c] ≠ "" := by
  intro h
  simpa using congrArg String.toList h

/-- A phone symbol as the specification's invariant demands it:
non-empty and invariant under upper-casing. -/
def GoodSym (p : String) : Prop := p ≠ "" ∧ pyUpper p = p

/-- A well-formed lexicon: every entry has at least one pronunciation
variant and every listed phone symbol, once its trailing stress digit
is stripped, is non-empty and upper-case.  The real cmudict data
satisfies this. -/
def WFLex (lex : Lexicon) : Prop :=
  ∀ e ∈ lex, e.2 ≠ [] ∧ ∀ v ∈ e.2, ∀ p ∈ v, GoodSym (stripStress p)

lemma letterFallback_good (w : String) :
    ∀ p ∈ letterFallback w, GoodSym p := by
  intro p hp
  obtain ⟨c, _, rfl⟩ := List.mem_map.mp hp
  refine ⟨mk_singleton_ne_empty _, ?_⟩
  rw [pyUpper_mk]
  simp [pyUpperChar_idem]

lemma wordPhones_good (lex : Lexicon) (hWF : WFLex lex) (w : String) :
    ∃ ps, wordPhones lex w = some ps ∧ ∀ p ∈ ps, GoodSym p := by
  unfold wordPhones
  cases h : lookupLex lex w with
  | none => exact ⟨letterFallback w, rfl, letterFallback_good w⟩
  | some variants =>
    obtain ⟨e, he, hsnd⟩ : ∃ e, lex.find?
        (fun x => x.1 = w) = some e ∧ e.2 = variants := by
      unfold lookupLex at h
      cases hf : lex.find? (fun x => x.1 = w) with
      | none => rw [hf] at h; exact absurd h (by simp)
      | some e => rw [hf] at h; exact ⟨e, rfl, by simpa using h⟩
    have hmem : e ∈ lex := List.mem_of_find?_eq_some he
    obtain ⟨hne, hgood⟩ := hWF e hmem
    cases hv : variants with
    | nil => exact absurd (hsnd.trans hv) hne
    | cons pron rest =>
      refine ⟨pron.map stripStress, rfl, ?_⟩
      intro p hp
      obtain ⟨q, hq, rfl⟩ := List.mem_map.mp hp
      exact hgood pron (hsnd ▸ hv ▸ List.mem_cons_self pron rest) q hq

lemma phonesOfWords_good (lex : Lexicon) (hWF : WFLex lex) (ws : List String) :
    ∃ phones, phonesOfWords lex ws = some phones ∧ ∀ p ∈ phones, GoodSym p := by
  induction ws with
  | nil => exact ⟨[], rfl, by simp⟩
  | cons w ws ih =>
    obtain ⟨ps, hps, hgood⟩ := wordPhones_good lex hWF w
    obtain ⟨rest, hrest, hgoodrest⟩ := ih
    refine ⟨ps ++ rest, ?_, ?_⟩
    · unfold phonesOfWords
      rw [hps, hrest]
    · intro p hp
      rcases List.mem_append.mp hp with h | h
      · exact hgood p h
      · exact hgoodrest p h

/-- Claim C3 as stated is false on the code.  Two concrete failures:
with the lexicon mapping A to the single pronunciation [ab], the text
"a" makes text_to_arpabet emit the symbol ab, which is not upper-case
(the code copies lexicon phones verbatim apart from digit stripping);
and for the out-of-lexicon word "don't" the fallback emits one symbol
per character of the normalized word DON'T — five symbols — not one
per letter, of which there are only four. -/
theorem phonemizer_claim_counterexample :
    (text_to_arpabet [("A", [["ab"]])] "a" = some ["ab"] ∧
      pyUpper "ab" ≠ "ab") ∧
    (text_to_arpabet [] "don't" = some ["D", "O", "N", "'", "T"] ∧
      normalizeWord "don't" = "DON'T" ∧
      (Option.map List.length (text_to_arpabet [] "don't") ≠
        some ((normalizeWord "don't").toList.filter Char.isAlpha).length)) := by
  decide

/-- Claim C3, amended: for every lexicon whose pronunciation symbols
strip to non-empty upper-case symbols (as the real cmudict data does)
and for every input text, text_to_arpabet succeeds and every emitted
symbol is non-empty and invariant under upper-casing; and for every
word not found in the lexicon the fallback emits exactly one
single-character symbol per character (letter or apostrophe) of the
normalized word. -/
theorem phonemizer_total_uppercase (lex : Lexicon) (hWF : WFLex lex)
    (text : String) :
    (text_to_arpabet lex text).isSome = true ∧
    (∃ phones, text_to_arpabet lex text = some phones ∧
      ∀ p ∈ phones, p ≠ "" ∧ pyUpper p = p) ∧
    (∀ w : String, lookupLex lex w = none →
      wordPhones lex w = some (letterFallback w) ∧
      (letterFallback w).length = w.toList.length) := by
  obtain ⟨phones, hph, hgood⟩ := phonesOfWords_good lex hWF
    (((pyWords text).map normalizeWord).filter (fun w => w ≠ ""))
  refine ⟨?_, ⟨phones, hph, hgood⟩, ?_⟩
  · unfold text_to_arpabet
    rw [hph]
    rfl
  · intro w hw
    constructor
    · unfold wordPhones
      rw [hw]
    · exact List.length_map _ _

/-- Witness for the amended claim C3: a concrete well-formed lexicon
(the HELLO entry of the scenario, with a stress marker) and the text
"hello zq", containing one known and one unknown word. -/
theorem phonemizer_total_uppercase_witness :
    WFLex [("HELLO", [["HH", "AH0", "L", "OW1"]])] ∧
    (text_to_arpabet [("HELLO", [["HH", "AH0", "L", "OW1"]])]
      "hello zq").isSome = true :=
  ⟨by unfold WFLex GoodSym; decide,
    (phonemizer_total_uppercase [("HELLO", [["HH", "AH0", "L", "OW1"]])]
      (by unfold WFLex GoodSym; decide) "hello zq").1⟩

/-- Claim C4 as stated is false on the code.  With the scenario's
lexicon and the text "Hello world" the phoneme sequence is as claimed,
but HH, L and W map to "no shape" and are dropped by
phones_to_shapes, so only 4 shapes remain and the allocator returns 4
intervals, not 8. -/
theorem scenario_hello_world_counterexample :
    text_to_arpabet
        [("HELLO", [["HH", "AH", "L", "OW"]]), ("WORLD", [["W", "ER", "L", "D"]])]
        "Hello world" = some ["HH", "AH", "L", "OW", "W", "ER", "L", "D"] ∧
    phones_to_shapes ["HH", "AH", "L", "OW", "W", "ER", "L", "D"] =
      ["AA", "OH", "rr", "dd"] ∧
    (makeSlots (phones_to_shapes ["HH", "AH", "L", "OW", "W", "ER", "L", "D"])
      1).length ≠ 8 := by
  refine ⟨by decide, by decide, ?_⟩
  rw [makeSlots_length]
  decide

/-- Claim C4, amended: with the scenario's lexicon and duration 1.0 s
the pipeline produces the phoneme sequence [HH, AH, L, OW, W, ER, L,
D]; the class rules map AH to AA, OW to OH, ER to rr and D to dd
while HH, L and W yield "no shape" and are dropped, giving the shape
sequence [AA, OH, rr, dd]; and the allocator returns exactly 4 timed
intervals, each spanning 0.25 s. -/
theorem scenario_hello_world_amended :
    text_to_arpabet
        [("HELLO", [["HH", "AH", "L", "OW"]]), ("WORLD", [["W", "ER", "L", "D"]])]
        "Hello world" = some ["HH", "AH", "L", "OW", "W", "ER", "L", "D"] ∧
    phones_to_shapes ["HH", "AH", "L", "OW", "W", "ER", "L", "D"] =
      ["AA", "OH", "rr", "dd"] ∧
    makeSlots ["AA", "OH", "rr", "dd"] 1 =
      [⟨"AA", 0, 1/4⟩, ⟨"OH", 1/4, 1/2⟩, ⟨"rr", 1/2, 3/4⟩, ⟨"dd", 3/4, 1⟩] :=
  ⟨by decide, by decide, by norm_num [makeSlots, List.enum]⟩

/-- ALLOWED_EMOTIONS from llm_tts_pipeline.py line 37. -/
def ALLOWED_EMOTIONS : List String :=
  ["neutral", "happy", "sad", "angry", "excited", "energetic", "gloomy"]

/-- The post-processing of the language-model response inside
get_reply_and_emotion (llm_tts_pipeline.py lines 83-89): the network
call is the external collaborator, so the function is modelled on the
text and emotion fields of the parsed response.  The text is
stripped; an emotion outside ALLOWED_EMOTIONS is replaced by
neutral. -/
def get_reply_and_emotion (respText respEmotion : String) : String × String :=
  (pyStrip respText,
    if respEmotion ∈ ALLOWED_EMOTIONS then respEmotion else "neutral")

/-- Claim C6: an emotion string outside the fixed enumeration is
substituted with neutral by get_reply_and_emotion before anything
downstream sees it, and a member of the enumeration is passed through
unchanged. -/
theorem emotion_validation (t e : String) :
    (e ∉ ALLOWED_EMOTIONS → (get_reply_and_emotion t e).2 = "neutral") ∧
    (e ∈ ALLOWED_EMOTIONS → (get_reply_and_emotion t e).2 = e) := by
  unfold get_reply_and_emotion
  constructor
  · intro h
    simp [h]
  · intro h
    simp [h]

/-- Witness for claim C6: the emotion string bogus is not in the
enumeration and is replaced by neutral; happy is and survives. -/
theorem emotion_validation_witness :
    ("bogus" ∉ ALLOWED_EMOTIONS ∧
      (get_reply_and_emotion "hi" "bogus").2 = "neutral") ∧
    ("happy" ∈ ALLOWED_EMOTIONS ∧
      (get_reply_and_emotion "hi" "happy").2 = "happy") :=
  ⟨⟨by decide, (emotion_validation "hi" "bogus").1 (by decide)⟩,
    ⟨by decide, (emotion_validation "hi" "happy").2 (by decide)⟩⟩

/-- The two pyttsx3 engine properties read and written by
synthesize_tts.  The rate property of the engine is an integer; the
volume is a float, modelled as an exact rational. -/
structure EngineProps where
  rate : ℤ
  volume : ℚ
  deriving DecidableEq

/-- Python's int() on a rational: truncation toward zero. -/
def pyInt (q : ℚ) : ℤ := if 0 ≤ q then ⌊q⌋ else ⌈q⌉

/-- The emotion-to-prosody mapping of synthesize_tts
(tts_pipeline.py lines 72-87): the multiplicative adjustments applied
to the baseline rate and volume, with the rate passed through int()
and the volume of happy/excited capped at 1.0.  The engine itself is
the external collaborator; this models the property values it is
given. -/
def synth_props (base : EngineProps) (emotion : String) : EngineProps :=
  if emotion = "happy" then
    { rate := pyInt ((base.rate : ℚ) * (115/100)),
      volume := min (base.volume * (11/10)) 1 }
  else if emotion = "excited" then
    { rate := pyInt ((base.rate : ℚ) * (125/100)),
      volume := min (base.volume * (11/10)) 1 }
  else if emotion = "sad" ∨ emotion = "gloomy" then
    { rate := pyInt ((base.rate : ℚ) * (85/100)),
      volume := base.volume * (9/10) }
  else if emotion = "angry" then
    { rate := pyInt ((base.rate : ℚ) * (11/10)), volume := base.volume }
  else base

/-- Claim C8 as stated is false on the code: the rate handed to the
engine is int(base_rate * factor), a truncated integer, not the exact
product.  At baseline rate 201 with emotion happy the engine is given
rate 231 while 201 * 1.15 = 231.15. -/
theorem prosody_shaper_counterexample :
    (synth_props ⟨201, 1/2⟩ "happy").rate = 231 ∧
    ((231 : ℚ) ≠ (201 : ℚ) * (115/100)) := by
  constructor
  · show pyInt ((201 : ℚ) * (115/100)) = 231
    norm_num [pyInt]
  · norm_num

/-- Claim C8, amended: the Prosody Shaper applies exactly the
documented multiplicative adjustments, with the adjusted rate
truncated to an integer by int(): happy gives rate int(base * 1.15)
and volume base * 1.1 capped at 1.0; excited gives rate
int(base * 1.25) and the same capped volume; sad and gloomy give rate
int(base * 0.85) and volume base * 0.9; angry gives rate
int(base * 1.1) with volume unchanged; every other emotion string
(neutral, energetic, or unrecognized) leaves both properties
unchanged. -/
theorem prosody_shaper_adjustments (base : EngineProps) :
    synth_props base "happy" =
      ⟨pyInt ((base.rate : ℚ) * (115/100)), min (base.volume * (11/10)) 1⟩ ∧
    synth_props base "excited" =
      ⟨pyInt ((base.rate : ℚ) * (125/100)), min (base.volume * (11/10)) 1⟩ ∧
    synth_props base "sad" =
      ⟨pyInt ((base.rate : ℚ) * (85/100)), base.volume * (9/10)⟩ ∧
    synth_props base "gloomy" =
      ⟨pyInt ((base.rate : ℚ) * (85/100)), base.volume * (9/10)⟩ ∧
    synth_props base "angry" =
      ⟨pyInt ((base.rate : ℚ) * (11/10)), base.volume⟩ ∧
    (∀ e : String,
      e ∉ (["happy", "excited", "sad", "gloomy", "angry"] : List String) →
      synth_props base e = base) := by
  refine ⟨rfl, rfl, rfl, rfl, rfl, ?_⟩
  intro e he
  simp only [List.mem_cons, List.not_mem_nil, or_false, not_or] at he
  obtain ⟨h1, h2, h3, h4, h5⟩ := he
  unfold synth_props
  rw [if_neg h1, if_neg h2, if_neg (by tauto), if_neg h5]

/-- Witness for the amended claim C8 at baseline rate 200, volume 1/2:
the emotion energetic is outside the five adjusted cases and leaves
the engine properties unchanged. -/
theorem prosody_shaper_adjustments_witness :
    ("energetic" ∉ (["happy", "excited", "sad", "gloomy", "angry"] :
      List String)) ∧
    synth_props ⟨200, 1/2⟩ "energetic" = ⟨200, 1/2⟩ :=
  ⟨by decide,
    (prosody_shaper_adjustments ⟨200, 1/2⟩).2.2.2.2.2 "energetic" (by decide)⟩

/-- The alignment record built in main (tts_pipeline.py lines
127-131): audio path, timed intervals, emotion tag. -/
structure AlignRecord where
  audio : String
  phonemes : List Slot
  emotion : String
  deriving DecidableEq

/-- The observable outcome of one run of main: the process exit code,
whether the audio file was written, and the alignment record written
to the JSON file, if any. -/
structure MainOutcome where
  exitCode : ℕ
  wavWritten : Bool
  alignWritten : Option AlignRecord
  deriving DecidableEq

/-- The path normalization of main (tts_pipeline.py line 128):
str(out_wav).replace with a single-character pattern, so every
backslash becomes a forward slash. -/
def pyReplaceBackslash (s : String) : String :=
  String.mk (s.toList.map (fun c => if c = '\\' then '/' else c))

/-- main from tts_pipeline.py lines 93-134 as a function of its
external inputs: the lexicon, the audio duration measured from the
synthesized waveform (the synthesizer and soundfile are external
collaborators), the argument vector argv, and the content of the
script file (none models a missing file, where read_text raises and
the interpreter exits with status 1 having written nothing).  With
the wrong argument count or a blank script the run exits with code 1
before any write; an IndexError inside text_to_arpabet (empty variant
list) would occur after the audio write but before the alignment
write; otherwise the run writes the audio file and the alignment
record and exits 0.  The parameter w of the record is the rendered
path string str(out_wav). -/
def tts_main (lex : Lexicon) (duration : ℚ) (argv : List String)
    (scriptContent : Option String) : MainOutcome :=
  if argv.length ≠ 5 then ⟨1, false, none⟩
  else
    match scriptContent with
    | none => ⟨1, false, none⟩
    | some content =>
      let text := pyStrip content
      if text = "" then ⟨1, false, none⟩
      else
        match text_to_arpabet lex text with
        | none => ⟨1, true, none⟩
        | some phones =>
          ⟨0, true, some ⟨pyReplaceBackslash (argv.getD 2 ""),
            makeSlots (phones_to_shapes phones) duration,
            argv.getD 4 ""⟩⟩

/-- Claim C7: when the script file is missing or its content is blank
after trimming, main exits with code 1 and writes neither the audio
file nor the alignment file. -/
theorem empty_input_fatal (lex : Lexicon) (d : ℚ) (argv : List String)
    (content : Option String)
    (h : content = none ∨ ∃ c, content = some c ∧ pyStrip c = "") :
    tts_main lex d argv content = ⟨1, false, none⟩ := by
  unfold tts_main
  by_cases h5 : argv.length ≠ 5
  · rw [if_pos h5]
  · rw [if_neg h5]
    rcases h with rfl | ⟨c, rfl, hc⟩
    · rfl
    · dsimp only
      rw [if_pos hc]

/-- Witness for claim C7: a whitespace-only script file gives exit
code 1 and no writes. -/
theorem empty_input_fatal_witness :
    pyStrip " \n " = "" ∧
    tts_main [] 1 ["tts_pipeline.py", "script.txt", "out.wav", "out.json",
      "neutral"] (some " \n ") = ⟨1, false, none⟩ :=
  ⟨by decide,
    empty_input_fatal [] 1 _ _ (Or.inr ⟨" \n ", rfl, by decide⟩)⟩

lemma pyReplaceBackslash_no_backslash (s : String) :
    ∀ c ∈ (pyReplaceBackslash s).toList, c ≠ '\\' := by
  intro c hc
  rw [pyReplaceBackslash, toList_mk] at hc
  obtain ⟨c', _, rfl⟩ := List.mem_map.mp hc
  by_cases h : c' = '\\'
  · rw [if_pos h]
    decide
  · rw [if_neg h]
    exact h

lemma tts_main_align_some (lex : Lexicon) (d : ℚ)
    (a0 a1 w aj e : String) (content : Option String) (rec : AlignRecord)
    (h : (tts_main lex d [a0, a1, w, aj, e] content).alignWritten = some rec) :
    rec.audio = pyReplaceBackslash w ∧ rec.emotion = e := by
  unfold tts_main at h
  rw [if_neg (fun hne => hne rfl : ¬ ([a0, a1, w, aj, e].length ≠ 5))] at h
  cases content with
  | none =>
    dsimp only at h
    exact Option.noConfusion h
  | some c =>
    dsimp only at h
    by_cases hc : pyStrip c = ""
    · rw [if_pos hc] at h
      exact Option.noConfusion h
    · rw [if_neg hc] at h
      cases ht : text_to_arpabet lex (pyStrip c) with
      | none =>
        rw [ht] at h
        exact Option.noConfusion h
      | some phones =>
        rw [ht] at h
        dsimp only at h
        injection h with h2
        subst h2
        exact ⟨rfl, rfl⟩

/-- Claim C9: whenever main writes an alignment record, its audio
field is the audio output path with every backslash replaced by a
forward slash, and therefore contains no backslash at all. -/
theorem audio_path_normalized (lex : Lexicon) (d : ℚ)
    (a0 a1 w aj e : String) (content : Option String) (rec : AlignRecord)
    (h : (tts_main lex d [a0, a1, w, aj, e] content).alignWritten = some rec) :
    rec.audio = pyReplaceBackslash w ∧
    ∀ c ∈ rec.audio.toList, c ≠ '\\' := by
  obtain ⟨ha, _⟩ := tts_main_align_some lex d a0 a1 w aj e content rec h
  exact ⟨ha, ha ▸ pyReplaceBackslash_no_backslash w⟩

/-- Witness for claim C9: a run with the Windows-style output path
C:\out.wav writes the forward-slash path C:/out.wav into the
record. -/
theorem audio_path_normalized_witness :
    (tts_main [] 1 ["tts_pipeline.py", "script.txt", "C:\\out.wav",
      "out.json", "neutral"] (some "a")).alignWritten =
      some ⟨"C:/out.wav", [], "neutral"⟩ ∧
    ("C:/out.wav" : String) = pyReplaceBackslash "C:\\out.wav" :=
  ⟨by decide,
    (audio_path_normalized [] 1 "tts_pipeline.py" "script.txt" "C:\\out.wav"
      "out.json" "neutral" (some "a") ⟨"C:/out.wav", [], "neutral"⟩
      (by decide)).1⟩

/-- Claim C10: main performs no validation of the emotion CLI
argument: whatever string stands in argv[4] — member of the
enumeration or not — is written verbatim into the emotion field of
the alignment record. -/
theorem emotion_passthrough (lex : Lexicon) (d : ℚ)
    (a0 a1 w aj e : String) (content : Option String) (rec : AlignRecord)
    (h : (tts_main lex d [a0, a1, w, aj, e] content).alignWritten = some rec) :
    rec.emotion = e :=
  (tts_main_align_some lex d a0 a1 w aj e content rec h).2

/-- Witness for claim C10: the emotion string bogus is outside
ALLOWED_EMOTIONS and is still written verbatim into the record. -/
theorem emotion_passthrough_witness :
    ("bogus" ∉ ALLOWED_EMOTIONS) ∧
    (tts_main [] 1 ["tts_pipeline.py", "script.txt", "out.wav", "out.json",
      "bogus"] (some "a")).alignWritten = some ⟨"out.wav", [], "bogus"⟩ ∧
    (⟨"out.wav", [], "bogus"⟩ : AlignRecord).emotion = "bogus" :=
  ⟨by decide, by decide,
    emotion_passthrough [] 1 "tts_pipeline.py" "script.txt" "out.wav"
      "out.json" "bogus" (some "a") ⟨"out.wav", [], "bogus"⟩ (by decide)⟩

end TTS
